import Mathlib

/-!
Verification of the negotiation backend (`src/quote.py`, `src/app.py`).

Prices are modelled as rationals (`ℚ`): every price literal handled by the
program is a short decimal string, and the claims under scrutiny concern
order comparisons and exact decimal values, which `ℚ` represents exactly.
Python's per-process string `hash` is modelled as an arbitrary function
`String → Int` (it is opaque to the program's logic); the LLM completion
service is modelled as an oracle whose generated texts are passed in as
explicit arguments.  Strings are treated in the ASCII fragment (all inputs
the routes handle in the claims are ASCII); `str.lower` is modelled as the
ASCII lowering map.
-/

/-! ### A small backtracking regex matcher

`extract_price_from_message` (quote.py lines 255-290) works by
`re.findall` over six fixed patterns.  Each pattern is a sequence of:
literal words, optional single characters (`:?`, `\$?`, `\.?`), greedy
character-class stars/pluses (`\s*`, `\d*`, `[\d,]+`), one alternation of
literal words (`(?:cost|price|amount)`), and exactly one capture group
`([\d,]+\.?\d*)`.  The matcher below implements Python's leftmost,
greedy, backtracking semantics for exactly this fragment; the capture
group is delimited by `groupStart` / `groupEnd` markers.
-/

/-- Character classes occurring in the price regexes: `\d`, `\s`, `[\d,]`. -/
inductive CClass
  | digit
  | space
  | digitComma
deriving DecidableEq

/-- Membership in a character class (ASCII fragment of Python's `\d`/`\s`). -/
def charMem : CClass → Char → Bool
  | CClass.digit, c => c.isDigit
  | CClass.space, c =>
      c = ' ' || c = '\t' || c = '\n' || c = '\r' || c = '\x0b' || c = '\x0c'
  | CClass.digitComma, c => c.isDigit || c = ','

/-- One item of a regex in the fragment used by `extract_price_from_message`. -/
inductive RItem
  | lit (w : String)
  | opt (c : Char)
  | alt (ws : List String)
  | star (cl : CClass)
  | plus (cl : CClass)
  | groupStart
  | groupEnd

/-- Consume the literal `w` from the front of `s`, returning the rest. -/
def dropLit : List Char → List Char → Option (List Char)
  | [], s => some s
  | _ :: _, [] => none
  | c :: w, d :: s => if c = d then dropLit w s else none

/-- Length of the maximal prefix of `s` lying in class `cl`. -/
def runLength (cl : CClass) (s : List Char) : Nat :=
  (s.takeWhile (charMem cl)).length

/-- Extend the capture accumulator when inside the capture group. -/
def capAdd (ing : Bool) (cap t : List Char) : List Char :=
  if ing then cap ++ t else cap

/-- Backtracking matcher: match the item sequence at the start of `s`.
`ing` records whether the position is inside the capture group, `cap` the
captured characters so far.  On success returns the remaining input and
the capture.  Greedy quantifiers try longer consumptions first, exactly
as Python's `re` does in this fragment. -/
def matchSeq : List RItem → List Char → Bool → List Char → Option (List Char × List Char)
  | [], s, _, cap => some (s, cap)
  | RItem.lit w :: rest, s, ing, cap =>
    match dropLit w.toList s with
    | some s2 => matchSeq rest s2 ing (capAdd ing cap w.toList)
    | none => none
  | RItem.opt c :: rest, s, ing, cap =>
    match s with
    | [] => matchSeq rest [] ing cap
    | c2 :: s2 =>
      if c2 = c then
        match matchSeq rest s2 ing (capAdd ing cap [c]) with
        | some r => some r
        | none => matchSeq rest (c2 :: s2) ing cap
      else matchSeq rest (c2 :: s2) ing cap
  | RItem.alt ws :: rest, s, ing, cap =>
    ws.findSome? (fun w =>
      match dropLit w.toList s with
      | some s2 => matchSeq rest s2 ing (capAdd ing cap w.toList)
      | none => none)
  | RItem.star cl :: rest, s, ing, cap =>
    (List.range (runLength cl s + 1)).reverse.findSome? (fun k =>
      matchSeq rest (s.drop k) ing (capAdd ing cap (s.take k)))
  | RItem.plus cl :: rest, s, ing, cap =>
    (List.range (runLength cl s)).reverse.findSome? (fun j =>
      matchSeq rest (s.drop (j + 1)) ing (capAdd ing cap (s.take (j + 1))))
  | RItem.groupStart :: rest, s, _, cap => matchSeq rest s true cap
  | RItem.groupEnd :: rest, s, _, cap => matchSeq rest s false cap

/-- `re.findall` scan: try the pattern at every position, left to right,
non-overlapping, recording the capture of each match.  The fuel argument
(called with the input length) only serves termination: every match here
consumes at least one character, and on a (theoretical) empty match the
scan advances one position, as Python does. -/
def findallAux (p : List RItem) : Nat → List Char → List (List Char)
  | 0, _ => []
  | _ + 1, [] => []
  | fuel + 1, c :: s =>
    match matchSeq p (c :: s) false [] with
    | some (rest, cap) =>
      if rest.length < (c :: s).length then cap :: findallAux p fuel rest
      else cap :: findallAux p fuel s
    | none => findallAux p fuel s

/-- `re.findall(pattern, s)` for a pattern with one capture group. -/
def findall (p : List RItem) (s : String) : List String :=
  (findallAux p s.toList.length s.toList).map List.asString

/-! ### The six price patterns of `extract_price_from_message` -/

/-- The capture group `([\d,]+\.?\d*)` shared by all six patterns. -/
def numGroup : List RItem :=
  [RItem.groupStart, RItem.plus CClass.digitComma, RItem.opt '.',
   RItem.star CClass.digit, RItem.groupEnd]

/-- Pattern `total:?\s*\$?([\d,]+\.?\d*)`. -/
def pat1 : List RItem :=
  [RItem.lit "total", RItem.opt ':', RItem.star CClass.space, RItem.opt '$'] ++ numGroup

/-- Pattern `total\s*(?:cost|price|amount):?\s*\$?([\d,]+\.?\d*)`. -/
def pat2 : List RItem :=
  [RItem.lit "total", RItem.star CClass.space, RItem.alt ["cost", "price", "amount"],
   RItem.opt ':', RItem.star CClass.space, RItem.opt '$'] ++ numGroup

/-- Pattern `grand\s*total:?\s*\$?([\d,]+\.?\d*)`. -/
def pat3 : List RItem :=
  [RItem.lit "grand", RItem.star CClass.space, RItem.lit "total",
   RItem.opt ':', RItem.star CClass.space, RItem.opt '$'] ++ numGroup

/-- Pattern `\$?([\d,]+\.?\d*)\s*total`. -/
def pat4 : List RItem :=
  [RItem.opt '$'] ++ numGroup ++ [RItem.star CClass.space, RItem.lit "total"]

/-- Pattern `quoted\s*(?:price|amount):?\s*\$?([\d,]+\.?\d*)`. -/
def pat5 : List RItem :=
  [RItem.lit "quoted", RItem.star CClass.space, RItem.alt ["price", "amount"],
   RItem.opt ':', RItem.star CClass.space, RItem.opt '$'] ++ numGroup

/-- The ordered pattern list of quote.py lines 259-265. -/
def patterns : List (List RItem) := [pat1, pat2, pat3, pat4, pat5]

/-- The fallback pattern `\$?([\d,]+\.?\d*)` of quote.py line 280. -/
def fallback_pattern : List RItem := [RItem.opt '$'] ++ numGroup

/-! ### Numeric parsing and the extractor itself -/

/-- ASCII lowering, modelling Python's `str.lower` on ASCII text. -/
def lowerChar (c : Char) : Char :=
  if 'A' ≤ c ∧ c ≤ 'Z' then Char.ofNat (c.toNat + 32) else c

/-- `content.lower()`. -/
def strLower (s : String) : String := (s.toList.map lowerChar).asString

/-- `price_str.replace(',', '')`. -/
def commaStrip (s : String) : String :=
  (s.toList.filter (fun c => c ≠ ',')).asString

/-- Digit list to number, most significant first. -/
def digitsToNat (ds : List Char) : Nat :=
  ds.foldl (fun a c => 10 * a + (c.toNat - 48)) 0

/-- Python's `float(s)` on the strings reaching it here: after comma
removal a capture consists of digits and at most one dot.  `float`
succeeds iff the string contains at least one digit (so `""` and `"."`
raise, while `"1."` and `".5"` parse). -/
def parsePyFloat (s : String) : Option ℚ :=
  let cs := s.toList
  let ip := cs.takeWhile (fun c => c ≠ '.')
  let rest := cs.dropWhile (fun c => c ≠ '.')
  if ¬ ip.all Char.isDigit then none
  else
    match rest with
    | [] => if ip.isEmpty then none else some (digitsToNat ip : ℚ)
    | _ :: fp =>
      if ¬ fp.all Char.isDigit then none
      else if ip.isEmpty ∧ fp.isEmpty then none
      else some ((digitsToNat ip : ℚ) + (digitsToNat fp : ℚ) / (10 ^ fp.length : ℚ))

/-- The labelled-pattern loop of quote.py lines 269-277: for each pattern
in order, take the **last** `findall` match; if it parses as a float
return it, otherwise (`except: continue`) move to the next pattern. -/
def tryPatterns : List (List RItem) → String → Option ℚ
  | [], _ => none
  | p :: ps, content_lower =>
    match (findall p content_lower).getLast? with
    | none => tryPatterns ps content_lower
    | some last =>
      match parsePyFloat (commaStrip last) with
      | some v => some v
      | none => tryPatterns ps content_lower

/-- The fallback pass candidates (quote.py lines 280-288): all tokens of
shape `\$?([\d,]+\.?\d*)` in the **original-case** text whose numeric
value exceeds 100 (`if val > 100`); tokens that fail `float` are skipped
(`except: continue`). -/
def fallbackAmounts (content : String) : List ℚ :=
  (findall fallback_pattern content).filterMap (fun a =>
    match parsePyFloat (commaStrip a) with
    | some v => if v > 100 then some v else none
    | none => none)

/-- `extract_price_from_message` (quote.py lines 255-290): the labelled
pass over the lowercased text, then the fallback scan over the original
text keeping amounts strictly greater than 100 and returning their
maximum (`max(amounts) if amounts else None`). -/
def extract_price_from_message (content : String) : Option ℚ :=
  let content_lower := strLower content
  match tryPatterns patterns content_lower with
  | some v => some v
  | none => (fallbackAmounts content).max?

/-- The value the labelled pass would take from one pattern: the last
`findall` match, comma-stripped and parsed as a float. -/
def lastMatchValue (p : List RItem) (s : String) : Option ℚ :=
  (findall p s).getLast?.bind (fun m => parsePyFloat (commaStrip m))

/-! ### Pricing strategy (`generate_supplier_response`, quote.py lines 163-217)

Python's built-in `hash` on strings is process-seeded and opaque; it is
modelled by an arbitrary `hashf : String → Int`.  Python's `%` on a
positive divisor returns a value in `[0, divisor)`, which is `Int.emod`
(the `%` of `ℤ` in Lean). -/

/-- The per-round price multiplier of quote.py lines 167-172. -/
def price_multiplier (hashf : String → Int) (company_name : String) (round_num : Nat) : ℚ :=
  if round_num = 0 then
    3/2 + ((hashf company_name % 30 : ℤ) : ℚ) / 100
  else if round_num = 1 then
    5/4 + ((hashf (company_name ++ toString round_num) % 20 : ℤ) : ℚ) / 100
  else
    11/10 + ((hashf (company_name ++ toString round_num) % 15 : ℤ) : ℚ) / 100

/-- `suggested_price = target_price * price_multiplier` (quote.py line 174).
The generated message text itself is an LLM oracle output; only the price
component is computed by the program. -/
def suggested_price (hashf : String → Int) (company_name : String) (round_num : Nat)
    (target_price : ℚ) : ℚ :=
  target_price * price_multiplier hashf company_name round_num

/-! ### Data model (quote.py lines 27-68)

Rows are modelled as structures; the ORM's table contents as lists in
insertion order (`created_at` ordering coincides with insertion order,
which is how the routes produce messages).  Only the columns the routes
read or write are carried. -/

/-- A `negotiation_sessions` row. -/
structure Session where
  id : Nat
  opportunity_id : String
  opportunity_title : String
  opportunity_data : String
  target_price : ℚ
  extracted_requirements : String
  status : String
deriving DecidableEq

/-- A `suppliers` row. -/
structure Supplier where
  id : Nat
  session_id : Nat
  company_name : String
  industry : String
  initial_price : Option ℚ
  final_price : Option ℚ
  status : String
  negotiation_round : Nat
deriving DecidableEq

/-- A `messages` row. -/
structure Message where
  supplier_id : Nat
  sender : String
  content : String
  price_mentioned : Option ℚ
deriving DecidableEq

/-- The relational store. -/
structure DB where
  sessions : List Session
  suppliers : List Supplier
  messages : List Message
deriving DecidableEq

/-- A supplier as created by `create_negotiation` (quote.py lines 325-329):
only `session_id`, `company_name` and `industry` are given; the column
defaults `status='pending'`, `negotiation_round=0` apply and both prices
are unset. -/
def mkSupplier (session_id : Nat) (i : Nat) (company_name industry : String) : Supplier :=
  { id := i, session_id := session_id, company_name := company_name, industry := industry,
    initial_price := none, final_price := none, status := "pending", negotiation_round := 0 }

/-- `Message.query.filter_by(supplier_id=..., sender='supplier')`, in
creation order. -/
def supplierMsgs (db : DB) (supplier_id : Nat) : List Message :=
  db.messages.filter (fun m => m.supplier_id == supplier_id && m.sender == "supplier")

/-- `Supplier.query.get(supplier_id)`. -/
def findSupplier (db : DB) (supplier_id : Nat) : Option Supplier :=
  db.suppliers.find? (fun s => s.id == supplier_id)

/-- `NegotiationSession.query.get(session_id)`. -/
def findSession (db : DB) (session_id : Nat) : Option Session :=
  db.sessions.find? (fun s => s.id == session_id)

/-- Python's `x or y` for an optional float `x` and float `y`:
`None` and `0.0` are falsy, any other float is returned as-is. -/
def pyOr (o : Option ℚ) (p : ℚ) : ℚ :=
  match o with
  | some v => if v = 0 then p else v
  | none => p

/-- Body of `respond_to_supplier` (quote.py lines 400-466) after the two
`get_or_404` lookups succeed with `ses` and `sup`.  `st` is the
LLM-generated supplier response text, `bt` the LLM-generated buyer
counter text (their content is oracle output; only their persistence and
the price bookkeeping are program logic). -/
def respondCore (hashf : String → Int) (st bt : String) (db : DB) (supplier_id : Nat)
    (ses : Session) (sup : Supplier) : DB :=
  -- lines 409-411: count of prior supplier-sent messages
  let supplier_messages := (supplierMsgs db supplier_id).length
  -- lines 413-433: round 0 on the first response, else the current round
  let round_used := if supplier_messages = 0 then 0 else sup.negotiation_round
  let price := suggested_price hashf sup.company_name round_used ses.target_price
  -- lines 423-424: first response sets initial_price and status
  let sup1 := if supplier_messages = 0 then
      { sup with initial_price := some price, status := "negotiating" }
    else sup
  -- lines 436-442: persist the supplier message
  let msg : Message :=
    { supplier_id := supplier_id, sender := "supplier", content := st,
      price_mentioned := some (pyOr (extract_price_from_message st) price) }
  if sup1.negotiation_round < 2 then
    -- lines 444-460: increment the round and append the buyer counter
    let sup2 := { sup1 with negotiation_round := sup1.negotiation_round + 1 }
    let buyer_msg : Message :=
      { supplier_id := supplier_id, sender := "buyer", content := bt, price_mentioned := none }
    { db with
      suppliers := db.suppliers.map (fun s => if s.id == supplier_id then sup2 else s),
      messages := db.messages ++ [msg, buyer_msg] }
  else
    -- lines 461-463: final round, set final_price
    let sup2 := { sup1 with final_price := some (pyOr (extract_price_from_message st) price) }
    { db with
      suppliers := db.suppliers.map (fun s => if s.id == supplier_id then sup2 else s),
      messages := db.messages ++ [msg] }

/-- `respond_to_supplier`: both lookups are by primary key; the supplier's
membership in the session is never checked. -/
def respond (hashf : String → Int) (st bt : String) (db : DB)
    (session_id supplier_id : Nat) : Option DB := do
  let ses ← findSession db session_id
  let sup ← findSupplier db supplier_id
  pure (respondCore hashf st bt db supplier_id ses sup)

/-- Body of `accept_quote` (quote.py lines 468-484) after the supplier
lookup succeeds.  The latest supplier-sent message is the last one in
creation order; its `price_mentioned` overwrites `final_price` when
truthy (`if last_supplier_msg and last_supplier_msg.price_mentioned`). -/
def acceptCore (db : DB) (supplier_id : Nat) (sup : Supplier) : DB :=
  let sup1 := { sup with status := "completed" }
  let last_supplier_msg := (supplierMsgs db supplier_id).getLast?
  let sup2 :=
    match last_supplier_msg with
    | some m =>
      match m.price_mentioned with
      | some p => if p = 0 then sup1 else { sup1 with final_price := some p }
      | none => sup1
    | none => sup1
  { db with suppliers := db.suppliers.map (fun s => if s.id == supplier_id then sup2 else s) }

/-- `accept_quote`: the `session_id` path parameter is accepted but never
used — only the supplier is looked up. -/
def accept (db : DB) (session_id supplier_id : Nat) : Option DB := do
  let _ := session_id
  let sup ← findSupplier db supplier_id
  pure (acceptCore db supplier_id sup)

/-- The supplier row as `respond_to_supplier` leaves it (read off from
`respondCore`): first response sets `initial_price` and `negotiating`;
below round 2 the round is incremented; at round 2 `final_price` is
(re)assigned. -/
def respondedSupplier (hashf : String → Int) (st : String) (db : DB) (supId : Nat)
    (ses : Session) (sup : Supplier) : Supplier :=
  let n := (supplierMsgs db supId).length
  let price := suggested_price hashf sup.company_name
    (if n = 0 then 0 else sup.negotiation_round) ses.target_price
  let sup1 := if n = 0 then
      { sup with initial_price := some price, status := "negotiating" }
    else sup
  if sup1.negotiation_round < 2 then
    { sup1 with negotiation_round := sup1.negotiation_round + 1 }
  else
    { sup1 with final_price := some (pyOr (extract_price_from_message st) price) }

/-- The supplier message `respond_to_supplier` appends. -/
def respondedMsg (hashf : String → Int) (st : String) (db : DB) (supId : Nat)
    (ses : Session) (sup : Supplier) : Message :=
  { supplier_id := supId, sender := "supplier", content := st,
    price_mentioned := some (pyOr (extract_price_from_message st)
      (suggested_price hashf sup.company_name
        (if (supplierMsgs db supId).length = 0 then 0 else sup.negotiation_round)
        ses.target_price)) }

/-- The supplier row as `accept_quote` leaves it (read off from
`acceptCore`). -/
def acceptedSupplier (db : DB) (supId : Nat) (sup : Supplier) : Supplier :=
  let sup1 := { sup with status := "completed" }
  match (supplierMsgs db supId).getLast? with
  | some m =>
    match m.price_mentioned with
    | some p => if p = 0 then sup1 else { sup1 with final_price := some p }
    | none => sup1
  | none => sup1

/-! ### Operation sequences over the store -/

/-- One caller-visible mutation step. -/
inductive Op
  | advance (session_id supplier_id : Nat) (st bt : String)
  | accept (session_id supplier_id : Nat)

/-- Apply one operation; a 404 (failed lookup) leaves the store unchanged. -/
def step (hashf : String → Int) (db : DB) : Op → DB
  | Op.advance sid supId st bt => (respond hashf st bt db sid supId).getD db
  | Op.accept sid supId => (accept db sid supId).getD db

/-- Run a sequence of operations. -/
def runOps (hashf : String → Int) (db : DB) (ops : List Op) : DB :=
  ops.foldl (step hashf) db

/-! ### Document-analysis parsing (`app.py` lines 133-147 and 208-216)

The two external decoding stages — `bytes(raw,"utf-8").decode("unicode_escape")`
and `json.loads` — are Python library calls; they are modelled as
arbitrary fallible functions (`Except`), so every theorem below holds for
every possible behaviour of those libraries. -/

/-- `parse_raw_output` (app.py lines 133-147): unescape, strip one
surrounding quote pair, parse the inner JSON.  The whole body is wrapped
in `try/except Exception: return None`, so the function is total and
**never propagates an exception**. -/
def parse_raw_output {α : Type} (decode : String → Except String String)
    (jloads : String → Except String α) (raw_output : String) : Option α :=
  match decode raw_output with
  | Except.error _ => none
  | Except.ok cleaned_str =>
    let cs := cleaned_str.toList
    let cs2 := if cs.head? = some '\"' ∧ cs.getLast? = some '\"'
      then (cs.drop 1).dropLast else cs
    match jloads cs2.asString with
    | Except.ok result => some result
    | Except.error _ => none

/-- The response of `analyze_solicitations` after the LLM reply text is
obtained (app.py lines 208-216): either the parsed payload is returned
directly, or — were a `json.JSONDecodeError` to escape the try-block —
a 502 error carrying `raw_output`. -/
inductive AnalyzeOutcome (α : Type)
  | payload (p : Option α)
  | parseFailure (raw : String)
deriving DecidableEq

/-- app.py lines 208-216: `parsed_data = parse_raw_output(raw_output);
return parsed_data`, with the `except json.JSONDecodeError` handler.
Since `parse_raw_output` catches every exception internally and returns
`None`, the try-block cannot raise and the handler is unreachable: the
view always returns the (possibly `None`) payload. -/
def analyze_result {α : Type} (decode : String → Except String String)
    (jloads : String → Except String α) (raw_output : String) : AnalyzeOutcome α :=
  AnalyzeOutcome.payload (parse_raw_output decode jloads raw_output)

/-! ### Concrete stores used by witnesses and counterexamples -/

/-- A concrete session with target price 1000. -/
def sessionEx : Session :=
  { id := 1, opportunity_id := "opp-1", opportunity_title := "t",
    opportunity_data := "d", target_price := 1000,
    extracted_requirements := "reqs", status := "active" }

/-- A second concrete session (target price 2000) for cross-session calls. -/
def sessionEx2 : Session :=
  { id := 2, opportunity_id := "opp-2", opportunity_title := "t2",
    opportunity_data := "d2", target_price := 2000,
    extracted_requirements := "reqs2", status := "active" }

/-- A one-session, one-supplier store with no messages. -/
def dbEx : DB :=
  { sessions := [sessionEx], suppliers := [mkSupplier 1 1 "Acme" "tech"], messages := [] }

/-- A two-session store whose only supplier belongs to session 2. -/
def dbEx2 : DB :=
  { sessions := [sessionEx, sessionEx2],
    suppliers := [mkSupplier 2 7 "Beta" "tech"],
    messages := [] }

/-- A fixed stand-in for Python's process-seeded string hash. -/
def hashEx : String → Int := fun _ => 0

/-- A supplier-sent message carrying price 900, for the accept witnesses. -/
def msgEx : Message :=
  { supplier_id := 1, sender := "supplier", content := "total: $900",
    price_mentioned := some 900 }

/-- A store whose supplier already has one priced supplier message. -/
def dbAcceptEx : DB :=
  { sessions := [sessionEx], suppliers := [mkSupplier 1 1 "Acme" "tech"],
    messages := [msgEx] }

/-- A concrete instance of the outer unescape stage that succeeds verbatim
(the reply contains no backslash escapes). -/
def decodeEx : String → Except String String := fun s => Except.ok s

/-- A concrete instance of `json.loads` behaviour on a reply that is not
JSON: every input fails to parse. -/
def jloadsErr : String → Except String Unit := fun _ => Except.error "Expecting value"

/-! ### Helper lemmas -/

/-- Updating every row with a given id and then looking that id up returns
the replacement, provided the replacement keeps the id. -/
theorem find?_map_const {l : List Supplier} {i : Nat} {t sup : Supplier}
    (h : l.find? (fun s => s.id == i) = some sup) (ht : (t.id == i) = true) :
    (l.map (fun s => if s.id == i then t else s)).find? (fun s => s.id == i) = some t := by
  induction l with
  | nil => simp at h
  | cons a l ih =>
    rw [List.map_cons]
    by_cases ha : (a.id == i) = true
    · rw [if_pos ha]
      exact List.find?_cons_of_pos _ ht
    · rw [if_neg ha]
      have h2 : List.find? (fun s => s.id == i) (a :: l) =
          List.find? (fun s => s.id == i) l := List.find?_cons_of_neg _ ha
      rw [h2] at h
      have h3 : List.find? (fun s => s.id == i)
          (a :: List.map (fun s => if s.id == i then t else s) l) =
          List.find? (fun s => s.id == i)
            (List.map (fun s => if s.id == i then t else s) l) :=
        List.find?_cons_of_neg _ ha
      rw [h3]
      exact ih h

/-- `respond_to_supplier` reduces to `respondCore` when both primary-key
lookups succeed. -/
theorem respond_eq {hashf : String → Int} {st bt : String} {db : DB}
    {sid supId : Nat} {ses : Session} {sup : Supplier}
    (hs : findSession db sid = some ses) (hp : findSupplier db supId = some sup) :
    respond hashf st bt db sid supId = some (respondCore hashf st bt db supId ses sup) := by
  simp [respond, hs, hp]

/-- `accept_quote` reduces to `acceptCore` when the supplier lookup
succeeds. -/
theorem accept_eq {db : DB} {sid supId : Nat} {sup : Supplier}
    (hp : findSupplier db supId = some sup) :
    accept db sid supId = some (acceptCore db supId sup) := by
  simp [accept, hp]

/-- The labelled-pattern loop equals "first pattern whose last match
parses as a float wins". -/
theorem tryPatterns_eq_findSome (ps : List (List RItem)) (s : String) :
    tryPatterns ps s = ps.findSome? (fun p => lastMatchValue p s) := by
  induction ps with
  | nil => rfl
  | cons p ps ih =>
    rw [List.findSome?_cons]
    unfold tryPatterns
    cases h : (findall p s).getLast? with
    | none => simp [lastMatchValue, h, ih]
    | some last =>
      cases hv : parsePyFloat (commaStrip last) with
      | none => simp [lastMatchValue, h, hv, ih]
      | some v => simp [lastMatchValue, h, hv]

/-- When no labelled pattern matches at all, the labelled pass yields
nothing. -/
theorem tryPatterns_eq_none_of_no_match {s : String}
    (h : ∀ p ∈ patterns, findall p s = []) : tryPatterns patterns s = none := by
  rw [tryPatterns_eq_findSome, List.findSome?_eq_none_iff]
  intro p hp
  simp [lastMatchValue, h p hp]

/-- One `respond_to_supplier` step, characterized: sessions untouched, the
supplier-message thread grows by exactly the generated supplier message,
and the supplier row becomes `respondedSupplier`. -/
theorem respondCore_spec (hashf : String → Int) (st bt : String) (db : DB)
    (supId : Nat) (ses : Session) (sup : Supplier)
    (hp : findSupplier db supId = some sup) :
    (respondCore hashf st bt db supId ses sup).sessions = db.sessions ∧
    supplierMsgs (respondCore hashf st bt db supId ses sup) supId =
      supplierMsgs db supId ++ [respondedMsg hashf st db supId ses sup] ∧
    findSupplier (respondCore hashf st bt db supId ses sup) supId =
      some (respondedSupplier hashf st db supId ses sup) := by
  have hp' : db.suppliers.find? (fun s => s.id == supId) = some sup := hp
  have hid : (sup.id == supId) = true :=
    List.find?_some (p := fun s => s.id == supId) (l := db.suppliers) hp'
  have hb : (("buyer" : String) == "supplier") = false := by decide
  refine ⟨?_, ?_, ?_⟩
  · unfold respondCore
    dsimp only
    split_ifs <;> rfl
  · unfold respondCore respondedMsg
    dsimp only
    split_ifs <;>
      simp [supplierMsgs, List.filter_append, List.filter, hb]
  · unfold respondCore respondedSupplier findSupplier
    dsimp only
    split_ifs <;>
      exact find?_map_const hp' (by simp [hid])

/-- One `accept_quote` step, characterized: sessions and messages are
untouched and the supplier row becomes `acceptedSupplier`. -/
theorem acceptCore_spec (db : DB) (supId : Nat) (sup : Supplier)
    (hp : findSupplier db supId = some sup) :
    (acceptCore db supId sup).sessions = db.sessions ∧
    (acceptCore db supId sup).messages = db.messages ∧
    findSupplier (acceptCore db supId sup) supId =
      some (acceptedSupplier db supId sup) := by
  have hp' : db.suppliers.find? (fun s => s.id == supId) = some sup := hp
  have hid : (sup.id == supId) = true :=
    List.find?_some (p := fun s => s.id == supId) (l := db.suppliers) hp'
  refine ⟨rfl, rfl, ?_⟩
  unfold acceptCore acceptedSupplier findSupplier
  dsimp only
  cases hm : (supplierMsgs db supId).getLast? with
  | none => exact find?_map_const hp' (by simp [hid])
  | some m =>
    cases hpr : m.price_mentioned with
    | none =>
      simp only [hpr]
      exact find?_map_const hp' (by simp [hid])
    | some p =>
      simp only [hpr]
      split_ifs <;> exact find?_map_const hp' (by simp [hid])

/-- The round after one advance: incremented exactly when it was below 2. -/
theorem respondedSupplier_round (hashf : String → Int) (st : String) (db : DB)
    (supId : Nat) (ses : Session) (sup : Supplier) :
    (respondedSupplier hashf st db supId ses sup).negotiation_round =
      if sup.negotiation_round < 2 then sup.negotiation_round + 1
      else sup.negotiation_round := by
  unfold respondedSupplier
  dsimp only
  split_ifs <;> rfl

/-- The status after one advance: `negotiating` on the first response,
otherwise unchanged. -/
theorem respondedSupplier_status (hashf : String → Int) (st : String) (db : DB)
    (supId : Nat) (ses : Session) (sup : Supplier) :
    (respondedSupplier hashf st db supId ses sup).status =
      if (supplierMsgs db supId).length = 0 then "negotiating" else sup.status := by
  unfold respondedSupplier
  dsimp only
  split_ifs <;> rfl

/-- The final price after one advance: untouched below round 2, assigned
(overwriting) at round 2. -/
theorem respondedSupplier_final (hashf : String → Int) (st : String) (db : DB)
    (supId : Nat) (ses : Session) (sup : Supplier) :
    (respondedSupplier hashf st db supId ses sup).final_price =
      if sup.negotiation_round < 2 then sup.final_price
      else some (pyOr (extract_price_from_message st)
        (suggested_price hashf sup.company_name
          (if (supplierMsgs db supId).length = 0 then 0 else sup.negotiation_round)
          ses.target_price)) := by
  unfold respondedSupplier
  dsimp only
  split_ifs <;> rfl

/-- Accepting never changes the round. -/
theorem acceptedSupplier_round (db : DB) (supId : Nat) (sup : Supplier) :
    (acceptedSupplier db supId sup).negotiation_round = sup.negotiation_round := by
  unfold acceptedSupplier
  dsimp only
  cases (supplierMsgs db supId).getLast? with
  | none => rfl
  | some m =>
    dsimp only
    cases m.price_mentioned with
    | none => rfl
    | some p =>
      dsimp only
      split_ifs <;> rfl

/-- Accepting always sets status `completed`. -/
theorem acceptedSupplier_status (db : DB) (supId : Nat) (sup : Supplier) :
    (acceptedSupplier db supId sup).status = "completed" := by
  unfold acceptedSupplier
  dsimp only
  cases (supplierMsgs db supId).getLast? with
  | none => rfl
  | some m =>
    dsimp only
    cases m.price_mentioned with
    | none => rfl
    | some p =>
      dsimp only
      split_ifs <;> rfl

/-- The supplier list after one advance, as a pointwise update. -/
theorem respondCore_suppliers (hashf : String → Int) (st bt : String) (db : DB)
    (supId : Nat) (ses : Session) (sup : Supplier) :
    (respondCore hashf st bt db supId ses sup).suppliers =
      db.suppliers.map (fun s =>
        if s.id == supId then respondedSupplier hashf st db supId ses sup else s) := by
  unfold respondCore respondedSupplier
  dsimp only
  split_ifs <;> rfl

/-- The supplier list after one accept, as a pointwise update. -/
theorem acceptCore_suppliers (db : DB) (supId : Nat) (sup : Supplier) :
    (acceptCore db supId sup).suppliers =
      db.suppliers.map (fun s =>
        if s.id == supId then acceptedSupplier db supId sup else s) := by
  unfold acceptCore acceptedSupplier
  dsimp only

/-- Every single operation preserves the round bound. -/
theorem round_le_two_step (hashf : String → Int) (db : DB) (op : Op)
    (h : ∀ s ∈ db.suppliers, s.negotiation_round ≤ 2) :
    ∀ s ∈ (step hashf db op).suppliers, s.negotiation_round ≤ 2 := by
  cases op with
  | advance sid supId st bt =>
    cases hs : findSession db sid with
    | none => simpa [step, respond, hs] using h
    | some ses =>
      cases hp : findSupplier db supId with
      | none => simpa [step, respond, hs, hp] using h
      | some sup =>
        have hp' : db.suppliers.find? (fun s => s.id == supId) = some sup := hp
        have hsup : sup ∈ db.suppliers := List.mem_of_find?_eq_some hp'
        have hstep : step hashf db (Op.advance sid supId st bt) =
            respondCore hashf st bt db supId ses sup := by
          simp [step, respond_eq hs hp]
        rw [hstep, respondCore_suppliers]
        intro s' hs'
        obtain ⟨s0, h0, rfl⟩ := List.mem_map.mp hs'
        by_cases hid : (s0.id == supId) = true
        · rw [if_pos hid, respondedSupplier_round]
          have hb := h sup hsup
          split_ifs with hlt
          · omega
          · exact hb
        · rw [if_neg hid]
          exact h s0 h0
  | accept sid supId =>
    cases hp : findSupplier db supId with
    | none => simpa [step, accept, hp] using h
    | some sup =>
      have hp' : db.suppliers.find? (fun s => s.id == supId) = some sup := hp
      have hsup : sup ∈ db.suppliers := List.mem_of_find?_eq_some hp'
      have hstep : step hashf db (Op.accept sid supId) = acceptCore db supId sup := by
        simp [step, accept_eq hp]
      rw [hstep, acceptCore_suppliers]
      intro s' hs'
      obtain ⟨s0, h0, rfl⟩ := List.mem_map.mp hs'
      by_cases hid : (s0.id == supId) = true
      · rw [if_pos hid, acceptedSupplier_round]
        exact h sup hsup
      · rw [if_neg hid]
        exact h s0 h0

/-- The round bound is preserved along every operation sequence. -/
theorem round_le_two_runOps (hashf : String → Int) (db : DB) (ops : List Op)
    (h : ∀ s ∈ db.suppliers, s.negotiation_round ≤ 2) :
    ∀ s ∈ (runOps hashf db ops).suppliers, s.negotiation_round ≤ 2 := by
  induction ops generalizing db with
  | nil => exact h
  | cons op ops ih => exact ih (step hashf db op) (round_le_two_step hashf db op h)

/-! ### Claim theorems -/

/-- Claim C2: `accept_quote` always sets the supplier's status to
`completed`; when the most recent supplier-sent message carries a price
`p` (a truthy `price_mentioned`), that price overwrites any previously
set `final_price`; when no supplier-sent message carries a price,
`final_price` is left unchanged. -/
theorem accept_completes_and_overwrites_final_price
    (db : DB) (sid supId : Nat) (sup : Supplier)
    (h : findSupplier db supId = some sup) :
    ∃ db' sup', accept db sid supId = some db' ∧
      findSupplier db' supId = some sup' ∧
      sup'.status = "completed" ∧
      (∀ m p, (supplierMsgs db supId).getLast? = some m →
        m.price_mentioned = some p → p ≠ 0 → sup'.final_price = some p) ∧
      ((∀ m ∈ supplierMsgs db supId, m.price_mentioned = none) →
        sup'.final_price = sup.final_price) := by
  obtain ⟨-, -, hfind⟩ := acceptCore_spec db supId sup h
  refine ⟨acceptCore db supId sup, acceptedSupplier db supId sup, accept_eq h, hfind,
    acceptedSupplier_status db supId sup, ?_, ?_⟩
  · intro m p hm hpm hne
    unfold acceptedSupplier
    dsimp only
    rw [hm]
    dsimp only
    rw [hpm]
    dsimp only
    rw [if_neg hne]
  · intro hall
    unfold acceptedSupplier
    dsimp only
    cases hm : (supplierMsgs db supId).getLast? with
    | none => rfl
    | some m =>
      have hmem : m ∈ supplierMsgs db supId := List.mem_of_mem_getLast? hm
      have hnone := hall m hmem
      dsimp only
      rw [hnone]

/-- Claim C2 witness: a store whose latest supplier message carries
price 900; accepting completes the supplier and overwrites
`final_price` with 900. -/
theorem accept_completes_and_overwrites_final_price_witness :
    findSupplier dbAcceptEx 1 = some (mkSupplier 1 1 "Acme" "tech") ∧
    (∃ db' sup', accept dbAcceptEx 1 1 = some db' ∧
      findSupplier db' 1 = some sup' ∧
      sup'.status = "completed" ∧
      (∀ m p, (supplierMsgs dbAcceptEx 1).getLast? = some m →
        m.price_mentioned = some p → p ≠ 0 → sup'.final_price = some p) ∧
      ((∀ m ∈ supplierMsgs dbAcceptEx 1, m.price_mentioned = none) →
        sup'.final_price = (mkSupplier 1 1 "Acme" "tech").final_price)) :=
  ⟨by decide,
    accept_completes_and_overwrites_final_price dbAcceptEx 1 1
      (mkSupplier 1 1 "Acme" "tech") (by decide)⟩

/-- Claim C3 counterexample: on the input "total: ,\nquoted price: 800"
the first pattern of the priority order does match (its match list is
[","]), but the last match of that first matching pattern has no numeric
value, and the extractor returns 800.0 taken from the *fifth* pattern —
so "the last match of the first pattern that matches" is not what is
returned. -/
theorem first_matching_pattern_wins_cex :
    findall pat1 (strLower "total: ,\nquoted price: 800") = [","] ∧
    parsePyFloat (commaStrip ",") = none ∧
    extract_price_from_message "total: ,\nquoted price: 800" = some 800 := by
  decide

/-- Claim C3 amended: whenever some labelled pattern has a last match that
parses as a float, the extractor returns the last-match value of the
*first pattern whose last match parses* (a pattern that matches but whose
last match fails float parsing is skipped, rather than winning). -/
theorem labelled_pass_first_parsing_pattern_wins (content : String)
    (h : ∃ p ∈ patterns, lastMatchValue p (strLower content) ≠ none) :
    extract_price_from_message content =
      patterns.findSome? (fun p => lastMatchValue p (strLower content)) := by
  obtain ⟨p, hp, hne⟩ := h
  have hsome : patterns.findSome? (fun q => lastMatchValue q (strLower content)) ≠ none := by
    intro hcon
    exact hne (List.findSome?_eq_none_iff.mp hcon p hp)
  obtain ⟨v, hv⟩ := Option.ne_none_iff_exists'.mp hsome
  unfold extract_price_from_message
  dsimp only
  rw [tryPatterns_eq_findSome, hv]

/-- Claim C3 witness: on "Item A: $50\nTotal: $1,200\nTotal: $1,500" the
first pattern matches twice and its last match wins: 1500.0. -/
theorem labelled_pass_first_parsing_pattern_wins_witness :
    (∃ p ∈ patterns,
      lastMatchValue p (strLower "Item A: $50\nTotal: $1,200\nTotal: $1,500") ≠ none) ∧
    extract_price_from_message "Item A: $50\nTotal: $1,200\nTotal: $1,500" =
      patterns.findSome? (fun p =>
        lastMatchValue p (strLower "Item A: $50\nTotal: $1,200\nTotal: $1,500")) ∧
    extract_price_from_message "Item A: $50\nTotal: $1,200\nTotal: $1,500" = some 1500 :=
  ⟨by decide,
    labelled_pass_first_parsing_pattern_wins "Item A: $50\nTotal: $1,200\nTotal: $1,500"
      (by decide),
    by decide⟩

/-- Claim C4: when no labelled pattern matches the lowercased text, the
extractor returns the maximum fallback candidate (dollar-amount-shaped
tokens of the original-case text whose value is strictly greater than
100) and returns nothing exactly when no candidate survives. -/
theorem extract_fallback_is_max (content : String)
    (h : ∀ p ∈ patterns, findall p (strLower content) = []) :
    (extract_price_from_message content = none ↔ fallbackAmounts content = []) ∧
    (∀ v, extract_price_from_message content = some v →
      v ∈ fallbackAmounts content ∧ ∀ w ∈ fallbackAmounts content, w ≤ v) := by
  have he : extract_price_from_message content = (fallbackAmounts content).max? := by
    unfold extract_price_from_message
    dsimp only
    rw [tryPatterns_eq_none_of_no_match h]
  constructor
  · rw [he]
    exact List.max?_eq_none_iff
  · intro v hv
    rw [he] at hv
    exact ⟨List.max?_mem (fun a b => max_choice a b) hv,
      fun w hw => (List.max?_le_iff (fun a b c => max_le_iff) hv).mp le_rfl w hw⟩

/-- Claim C4 witness: "$250 shipping, $4000 unit" has no labelled total;
the fallback candidates are 250 and 4000 and the extractor returns their
maximum 4000.0. -/
theorem extract_fallback_is_max_witness :
    (∀ p ∈ patterns, findall p (strLower "$250 shipping, $4000 unit") = []) ∧
    ((extract_price_from_message "$250 shipping, $4000 unit" = none ↔
        fallbackAmounts "$250 shipping, $4000 unit" = []) ∧
      (∀ v, extract_price_from_message "$250 shipping, $4000 unit" = some v →
        v ∈ fallbackAmounts "$250 shipping, $4000 unit" ∧
          ∀ w ∈ fallbackAmounts "$250 shipping, $4000 unit", w ≤ v)) :=
  ⟨by decide, extract_fallback_is_max "$250 shipping, $4000 unit" (by decide)⟩

/-- Claim C10: the dollar sign in the fallback pattern is optional — the
input "ships in 365 days" matches no labelled pattern and contains no
dollar sign at all, yet the extractor returns 365 for it. -/
theorem fallback_dollar_sign_optional :
    (∀ p ∈ patterns, findall p (strLower "ships in 365 days") = []) ∧
    "ships in 365 days".toList.all (fun c => c ≠ '$') = true ∧
    extract_price_from_message "ships in 365 days" = some 365 := by
  decide

/-- Claim C7: for every company name, round and positive target price the
pricing multiplier lies in [1.50, 1.80) at round 0, in [1.25, 1.45) at
round 1 and in [1.10, 1.25) at round ≥ 2 (for any string-hash function,
since Python's `%` with a positive divisor is non-negative and bounded),
and the suggested price is target price times multiplier. -/
theorem price_multiplier_bounds (hashf : String → Int) (company : String)
    (round_num : Nat) (target : ℚ) (htp : 0 < target) :
    (round_num = 0 → 3/2 ≤ price_multiplier hashf company round_num ∧
      price_multiplier hashf company round_num < 9/5) ∧
    (round_num = 1 → 5/4 ≤ price_multiplier hashf company round_num ∧
      price_multiplier hashf company round_num < 29/20) ∧
    (2 ≤ round_num → 11/10 ≤ price_multiplier hashf company round_num ∧
      price_multiplier hashf company round_num < 5/4) ∧
    suggested_price hashf company round_num target =
      target * price_multiplier hashf company round_num := by
  refine ⟨?_, ?_, ?_, rfl⟩
  · rintro rfl
    unfold price_multiplier
    norm_num
    have h0 : (0:ℤ) ≤ hashf company % 30 := Int.emod_nonneg _ (by norm_num)
    have h1 : hashf company % 30 < 30 := Int.emod_lt_of_pos _ (by norm_num)
    have hq0 : (0:ℚ) ≤ ((hashf company % 30 : ℤ) : ℚ) := by exact_mod_cast h0
    have hq1 : ((hashf company % 30 : ℤ) : ℚ) < 30 := by exact_mod_cast h1
    constructor <;> linarith
  · rintro rfl
    unfold price_multiplier
    norm_num
    have h0 : (0:ℤ) ≤ hashf (company ++ toString 1) % 20 := Int.emod_nonneg _ (by norm_num)
    have h1 : hashf (company ++ toString 1) % 20 < 20 := Int.emod_lt_of_pos _ (by norm_num)
    have hq0 : (0:ℚ) ≤ ((hashf (company ++ toString 1) % 20 : ℤ) : ℚ) := by exact_mod_cast h0
    have hq1 : ((hashf (company ++ toString 1) % 20 : ℤ) : ℚ) < 20 := by exact_mod_cast h1
    constructor <;> linarith
  · intro h2
    have hne0 : round_num ≠ 0 := by omega
    have hne1 : round_num ≠ 1 := by omega
    unfold price_multiplier
    rw [if_neg hne0, if_neg hne1]
    have h0 : (0:ℤ) ≤ hashf (company ++ toString round_num) % 15 :=
      Int.emod_nonneg _ (by norm_num)
    have h1 : hashf (company ++ toString round_num) % 15 < 15 :=
      Int.emod_lt_of_pos _ (by norm_num)
    have hq0 : (0:ℚ) ≤ ((hashf (company ++ toString round_num) % 15 : ℤ) : ℚ) := by
      exact_mod_cast h0
    have hq1 : ((hashf (company ++ toString round_num) % 15 : ℤ) : ℚ) < 15 := by
      exact_mod_cast h1
    constructor <;> linarith

/-- Claim C7 witness at round 0, target 1000. -/
theorem price_multiplier_bounds_witness :
    (0:ℚ) < 1000 ∧
    ((0 = 0 → 3/2 ≤ price_multiplier hashEx "Acme" 0 ∧
        price_multiplier hashEx "Acme" 0 < 9/5) ∧
      (0 = 1 → 5/4 ≤ price_multiplier hashEx "Acme" 0 ∧
        price_multiplier hashEx "Acme" 0 < 29/20) ∧
      (2 ≤ 0 → 11/10 ≤ price_multiplier hashEx "Acme" 0 ∧
        price_multiplier hashEx "Acme" 0 < 5/4) ∧
      suggested_price hashEx "Acme" 0 1000 = 1000 * price_multiplier hashEx "Acme" 0) :=
  ⟨by norm_num, price_multiplier_bounds hashEx "Acme" 0 1000 (by norm_num)⟩

/-- Claim C8 (code bug): when either parse stage of the document-analysis
reply fails, `parse_raw_output` swallows the exception internally and
returns `None`, so the route returns the bare `None` payload; the
`except json.JSONDecodeError` branch that would attach `raw_output`
never fires, so no error response carrying the raw reply text is ever
produced — contrary to the spec. -/
theorem parse_failure_yields_bare_none {α : Type}
    (decode : String → Except String String) (jloads : String → Except String α)
    (raw : String) (h : parse_raw_output decode jloads raw = none) :
    analyze_result decode jloads raw = AnalyzeOutcome.payload none ∧
    ∀ s, analyze_result decode jloads raw ≠ AnalyzeOutcome.parseFailure s := by
  refine ⟨by simp [analyze_result, h], ?_⟩
  intro s
  simp [analyze_result]

/-- Claim C8 witness: an LLM reply "not json" that fails the inner JSON
parse; the route's response is the bare `None` payload and never the
error carrying the raw text. -/
theorem parse_failure_yields_bare_none_witness :
    parse_raw_output decodeEx jloadsErr "not json" = none ∧
    (analyze_result decodeEx jloadsErr "not json" = AnalyzeOutcome.payload none ∧
      ∀ s, analyze_result decodeEx jloadsErr "not json" ≠ AnalyzeOutcome.parseFailure s) :=
  ⟨by decide, parse_failure_yields_bare_none decodeEx jloadsErr "not json" (by decide)⟩

/-- Claim C9: `respond_to_supplier` and `accept_quote` look the supplier
up by `supplierId` alone and never verify membership in the session named
by `sessionId`: with a valid session `sid` and a supplier that belongs to
a *different* session, respond still succeeds and appends a supplier
message whose recorded price falls back to the unrelated session's target
price, and accept still succeeds and completes that supplier. -/
theorem no_session_membership_check (hashf : String → Int) (st bt : String)
    (db : DB) (sid supId : Nat) (ses : Session) (sup : Supplier)
    (hs : findSession db sid = some ses) (hp : findSupplier db supId = some sup)
    (hdiff : sup.session_id ≠ sid) :
    respond hashf st bt db sid supId =
      some (respondCore hashf st bt db supId ses sup) ∧
    respondedMsg hashf st db supId ses sup ∈
      (respondCore hashf st bt db supId ses sup).messages ∧
    (respondedMsg hashf st db supId ses sup).price_mentioned =
      some (pyOr (extract_price_from_message st)
        (suggested_price hashf sup.company_name
          (if (supplierMsgs db supId).length = 0 then 0 else sup.negotiation_round)
          ses.target_price)) ∧
    (∃ sup', accept db sid supId = some (acceptCore db supId sup) ∧
      findSupplier (acceptCore db supId sup) supId = some sup' ∧
      sup'.status = "completed") := by
  refine ⟨respond_eq hs hp, ?_, rfl,
    ⟨acceptedSupplier db supId sup, accept_eq hp,
      (acceptCore_spec db supId sup hp).2.2, acceptedSupplier_status db supId sup⟩⟩
  unfold respondCore respondedMsg
  dsimp only
  split_ifs <;> simp

/-- Claim C9 witness: session 1 paired with supplier 7, which belongs to
session 2. -/
theorem no_session_membership_check_witness :
    findSession dbEx2 1 = some sessionEx ∧
    findSupplier dbEx2 7 = some (mkSupplier 2 7 "Beta" "tech") ∧
    (mkSupplier 2 7 "Beta" "tech").session_id ≠ 1 ∧
    (respond hashEx "t" "b" dbEx2 1 7 =
      some (respondCore hashEx "t" "b" dbEx2 7 sessionEx (mkSupplier 2 7 "Beta" "tech")) ∧
    respondedMsg hashEx "t" dbEx2 7 sessionEx (mkSupplier 2 7 "Beta" "tech") ∈
      (respondCore hashEx "t" "b" dbEx2 7 sessionEx (mkSupplier 2 7 "Beta" "tech")).messages ∧
    (respondedMsg hashEx "t" dbEx2 7 sessionEx (mkSupplier 2 7 "Beta" "tech")).price_mentioned =
      some (pyOr (extract_price_from_message "t")
        (suggested_price hashEx (mkSupplier 2 7 "Beta" "tech").company_name
          (if (supplierMsgs dbEx2 7).length = 0 then 0
           else (mkSupplier 2 7 "Beta" "tech").negotiation_round)
          sessionEx.target_price)) ∧
    (∃ sup', accept dbEx2 1 7 =
        some (acceptCore dbEx2 7 (mkSupplier 2 7 "Beta" "tech")) ∧
      findSupplier (acceptCore dbEx2 7 (mkSupplier 2 7 "Beta" "tech")) 7 = some sup' ∧
      sup'.status = "completed")) :=
  ⟨by decide, by decide, by decide,
    no_session_membership_check hashEx "t" "b" dbEx2 1 7 sessionEx
      (mkSupplier 2 7 "Beta" "tech") (by decide) (by decide) (by decide)⟩

/-- Claim C5 amended: `final_price` is (re)assigned by **every** advance
performed while the supplier's round is already 2 — so repeated advances
at round 2 keep overwriting it — and advances below round 2 leave it
unchanged; acceptance may additionally overwrite it from the latest
priced supplier message.  (The original "assigned at most once; no other
sequence of operations re-assigns it" fails — see the counterexample.) -/
theorem advance_final_price_assignment (hashf : String → Int) (st bt : String)
    (db : DB) (supId : Nat) (ses : Session) (sup : Supplier)
    (hp : findSupplier db supId = some sup) :
    ∃ sup', findSupplier (respondCore hashf st bt db supId ses sup) supId = some sup' ∧
      sup'.final_price =
        (if sup.negotiation_round < 2 then sup.final_price
         else some (pyOr (extract_price_from_message st)
           (suggested_price hashf sup.company_name
             (if (supplierMsgs db supId).length = 0 then 0 else sup.negotiation_round)
             ses.target_price))) :=
  ⟨respondedSupplier hashf st db supId ses sup,
    (respondCore_spec hashf st bt db supId ses sup hp).2.2,
    respondedSupplier_final hashf st db supId ses sup⟩

/-- Claim C5 witness: the supplier of the concrete store, at round 0, has
its `final_price` untouched by an advance. -/
theorem advance_final_price_assignment_witness :
    findSupplier dbEx 1 = some (mkSupplier 1 1 "Acme" "tech") ∧
    (∃ sup', findSupplier
        (respondCore hashEx "t" "b" dbEx 1 sessionEx (mkSupplier 1 1 "Acme" "tech")) 1 =
        some sup' ∧
      sup'.final_price =
        (if (mkSupplier 1 1 "Acme" "tech").negotiation_round < 2 then
          (mkSupplier 1 1 "Acme" "tech").final_price
         else some (pyOr (extract_price_from_message "t")
           (suggested_price hashEx (mkSupplier 1 1 "Acme" "tech").company_name
             (if (supplierMsgs dbEx 1).length = 0 then 0
              else (mkSupplier 1 1 "Acme" "tech").negotiation_round)
             sessionEx.target_price)))) :=
  ⟨by decide,
    advance_final_price_assignment hashEx "t" "b" dbEx 1 sessionEx
      (mkSupplier 1 1 "Acme" "tech") (by decide)⟩

/-- Claim C5 counterexample: from the concrete store, a third advance
assigns `final_price` 500 and a fourth advance re-assigns it to 600 —
`final_price` is not assigned at most once over the supplier's lifecycle,
and sequences beyond the minimal one do re-assign it. -/
theorem final_price_reassigned_cex :
    (findSupplier (runOps hashEx dbEx
        [Op.advance 1 1 "total: $900" "b", Op.advance 1 1 "total: $800" "b",
         Op.advance 1 1 "total: $500" "b"]) 1).map (fun s => s.final_price) =
      some (some 500) ∧
    (findSupplier (runOps hashEx dbEx
        [Op.advance 1 1 "total: $900" "b", Op.advance 1 1 "total: $800" "b",
         Op.advance 1 1 "total: $500" "b", Op.advance 1 1 "total: $600" "b"]) 1).map
      (fun s => s.final_price) = some (some 600) := by
  decide

/-- Claim C6: `negotiation_round` starts at 0 on creation; an advance
increments it by exactly 1 when and only when it is strictly below 2 and
leaves it unchanged otherwise; accept never changes it; and along every
operation sequence from a store satisfying the bound, every supplier's
round stays at most 2. -/
theorem negotiation_round_invariant :
    (∀ sid i nm ind, (mkSupplier sid i nm ind).negotiation_round = 0) ∧
    (∀ (hashf : String → Int) (st bt : String) (db : DB) (supId : Nat)
        (ses : Session) (sup : Supplier),
      findSupplier db supId = some sup →
      ∃ sup', findSupplier (respondCore hashf st bt db supId ses sup) supId = some sup' ∧
        sup'.negotiation_round =
          (if sup.negotiation_round < 2 then sup.negotiation_round + 1
           else sup.negotiation_round)) ∧
    (∀ (db : DB) (supId : Nat) (sup : Supplier),
      findSupplier db supId = some sup →
      ∃ sup', findSupplier (acceptCore db supId sup) supId = some sup' ∧
        sup'.negotiation_round = sup.negotiation_round) ∧
    (∀ (hashf : String → Int) (db : DB) (ops : List Op),
      (∀ s ∈ db.suppliers, s.negotiation_round ≤ 2) →
      ∀ s ∈ (runOps hashf db ops).suppliers, s.negotiation_round ≤ 2) := by
  refine ⟨fun _ _ _ _ => rfl, ?_, ?_, round_le_two_runOps⟩
  · intro hashf st bt db supId ses sup hp
    exact ⟨respondedSupplier hashf st db supId ses sup,
      (respondCore_spec hashf st bt db supId ses sup hp).2.2,
      respondedSupplier_round hashf st db supId ses sup⟩
  · intro db supId sup hp
    exact ⟨acceptedSupplier db supId sup, (acceptCore_spec db supId sup hp).2.2,
      acceptedSupplier_round db supId sup⟩

/-- Claim C6 witness: the bound holds along a concrete four-operation
sequence from the concrete store. -/
theorem negotiation_round_invariant_witness :
    (∀ s ∈ dbEx.suppliers, s.negotiation_round ≤ 2) ∧
    (∀ s ∈ (runOps hashEx dbEx
        [Op.advance 1 1 "total: $900" "b", Op.advance 1 1 "total: $800" "b",
         Op.advance 1 1 "total: $500" "b", Op.accept 1 1]).suppliers,
      s.negotiation_round ≤ 2) :=
  ⟨by decide,
    negotiation_round_invariant.2.2.2 hashEx dbEx
      [Op.advance 1 1 "total: $900" "b", Op.advance 1 1 "total: $800" "b",
       Op.advance 1 1 "total: $500" "b", Op.accept 1 1] (by decide)⟩

/-- Claim C1 counterexample: in the concrete store, after exactly two
advance calls the supplier is at round 2 with status "negotiating" but
`final_price` is still unset — the claim's "final_price is set
(non-null)" fails after two advances. -/
theorem two_advances_final_price_unset_cex :
    (findSupplier (runOps hashEx dbEx
        [Op.advance 1 1 "total: $900" "b1", Op.advance 1 1 "total: $800" "b2"]) 1).map
      (fun s => (s.negotiation_round, s.status, s.final_price)) =
      some (2, "negotiating", none) := by
  decide

/-- Claim C1 amended: a supplier starting at round 0 with no supplier-sent
messages reaches, after exactly two advances, round 2 with status
"negotiating" but with `final_price` still unset; it is the **third**
advance that sets `final_price`, with status still "negotiating" (only
accept sets "completed") and round still 2. -/
theorem two_advances_round2_third_sets_final_price
    (hashf : String → Int) (st1 bt1 st2 bt2 st3 bt3 : String) (db : DB)
    (sid supId : Nat) (ses : Session) (sup : Supplier)
    (hs : findSession db sid = some ses) (hp : findSupplier db supId = some sup)
    (h0 : sup.negotiation_round = 0) (hm : supplierMsgs db supId = [])
    (hf : sup.final_price = none) :
    ∃ db1 db2 db3 sup2 sup3,
      respond hashf st1 bt1 db sid supId = some db1 ∧
      respond hashf st2 bt2 db1 sid supId = some db2 ∧
      findSupplier db2 supId = some sup2 ∧
      sup2.negotiation_round = 2 ∧ sup2.status = "negotiating" ∧
      sup2.final_price = none ∧
      respond hashf st3 bt3 db2 sid supId = some db3 ∧
      findSupplier db3 supId = some sup3 ∧
      (∃ p, sup3.final_price = some p) ∧
      sup3.status = "negotiating" ∧ sup3.negotiation_round = 2 := by
  obtain ⟨hses1, hmsgs1, hfind1⟩ := respondCore_spec hashf st1 bt1 db supId ses sup hp
  set db1 := respondCore hashf st1 bt1 db supId ses sup with hdb1
  set sup1 := respondedSupplier hashf st1 db supId ses sup with hsup1def
  have hr1 : sup1.negotiation_round = 1 := by
    rw [hsup1def, respondedSupplier_round, h0]
    norm_num
  have hst1 : sup1.status = "negotiating" := by
    rw [hsup1def, respondedSupplier_status, hm]
    norm_num
  have hf1 : sup1.final_price = none := by
    rw [hsup1def, respondedSupplier_final, h0, if_pos (by norm_num)]
    exact hf
  have hm1 : supplierMsgs db1 supId = [respondedMsg hashf st1 db supId ses sup] := by
    rw [hmsgs1, hm, List.nil_append]
  have hs1 : findSession db1 sid = some ses := by
    show db1.sessions.find? (fun s => s.id == sid) = some ses
    rw [hses1]
    exact hs
  obtain ⟨hses2, hmsgs2, hfind2⟩ := respondCore_spec hashf st2 bt2 db1 supId ses sup1 hfind1
  set db2 := respondCore hashf st2 bt2 db1 supId ses sup1 with hdb2
  set sup2 := respondedSupplier hashf st2 db1 supId ses sup1 with hsup2def
  have hr2 : sup2.negotiation_round = 2 := by
    rw [hsup2def, respondedSupplier_round, hr1]
    norm_num
  have hst2 : sup2.status = "negotiating" := by
    rw [hsup2def, respondedSupplier_status, hm1]
    simpa using hst1
  have hf2 : sup2.final_price = none := by
    rw [hsup2def, respondedSupplier_final, hr1, if_pos (by norm_num)]
    exact hf1
  have hm2 : (supplierMsgs db2 supId).length = 2 := by
    rw [hmsgs2, hm1]
    rfl
  have hs2 : findSession db2 sid = some ses := by
    show db2.sessions.find? (fun s => s.id == sid) = some ses
    rw [hses2]
    exact hs1
  obtain ⟨hses3, hmsgs3, hfind3⟩ := respondCore_spec hashf st3 bt3 db2 supId ses sup2 hfind2
  set sup3 := respondedSupplier hashf st3 db2 supId ses sup2 with hsup3def
  have hr3 : sup3.negotiation_round = 2 := by
    rw [hsup3def, respondedSupplier_round, hr2]
    norm_num
  have hst3 : sup3.status = "negotiating" := by
    rw [hsup3def, respondedSupplier_status, hm2]
    simpa using hst2
  have hf3 : ∃ p, sup3.final_price = some p := by
    rw [hsup3def, respondedSupplier_final, hr2, if_neg (by norm_num)]
    exact ⟨_, rfl⟩
  exact ⟨db1, db2, respondCore hashf st3 bt3 db2 supId ses sup2, sup2, sup3,
    respond_eq hs hp, respond_eq hs1 hfind1, hfind2, hr2, hst2, hf2,
    respond_eq hs2 hfind2, hfind3, hf3, hst3, hr3⟩

/-- Claim C1 witness: the concrete store, with concrete oracle texts. -/
theorem two_advances_round2_third_sets_final_price_witness :
    findSession dbEx 1 = some sessionEx ∧
    findSupplier dbEx 1 = some (mkSupplier 1 1 "Acme" "tech") ∧
    (mkSupplier 1 1 "Acme" "tech").negotiation_round = 0 ∧
    supplierMsgs dbEx 1 = [] ∧
    (mkSupplier 1 1 "Acme" "tech").final_price = none ∧
    (∃ db1 db2 db3 sup2 sup3,
      respond hashEx "total: $900" "b1" dbEx 1 1 = some db1 ∧
      respond hashEx "total: $800" "b2" db1 1 1 = some db2 ∧
      findSupplier db2 1 = some sup2 ∧
      sup2.negotiation_round = 2 ∧ sup2.status = "negotiating" ∧
      sup2.final_price = none ∧
      respond hashEx "total: $500" "b3" db2 1 1 = some db3 ∧
      findSupplier db3 1 = some sup3 ∧
      (∃ p, sup3.final_price = some p) ∧
      sup3.status = "negotiating" ∧ sup3.negotiation_round = 2) :=
  ⟨by decide, by decide, by decide, by decide, by decide,
    two_advances_round2_third_sets_final_price hashEx "total: $900" "b1"
      "total: $800" "b2" "total: $500" "b3" dbEx 1 1 sessionEx
      (mkSupplier 1 1 "Acme" "tech") (by decide) (by decide) (by decide)
      (by decide) (by decide)⟩
